/-
Verification of the sanctions-screening matching and decision engine.

Shallow embedding of:
  app/services/screening_service.py         (ScreeningService)
  app/services/payment_screening_service.py (PaymentScreeningService)
  app/services/fuzzy_service.py             (normalize_score; the raw
    weighted-average ratio is an injected String -> ℚ scorer, 0..100 scale)
  app/services/nlp_service.py               (calculate_similarity wrapper;
    the raw embedding-based provider is an injected fallible scorer)
  app/core/config.py                        (threshold settings)

Scores are modelled as rationals (ℚ); Python floats carry exact decimal
constants in all the screened code paths, and the claims are about the
algebraic structure of the computation, not float rounding.
-/
import Mathlib

/-- Modelled from the spec: decision ∈ {clear, review, block}
(`DecisionType` of app/models/schemas.py, a module absent from src). -/
inductive DecisionType where
  | clear
  | review
  | block
deriving DecidableEq, Repr

/-- Modelled from the spec: match strategy tag (`MatchType` of
app/models/schemas.py, absent from src); `bert` is the semantic strategy. -/
inductive MatchType where
  | exact
  | fuzzy
  | bert
deriving DecidableEq, Repr

/-- Modelled from the spec: payment processing states (`PaymentStatus` of
app/models/schemas.py, absent from src); only the states the orchestrator
assigns are included. -/
inductive PaymentStatus where
  | screening
  | approved
  | blocked
  | error
deriving DecidableEq, Repr

/-- Modelled from the spec: the candidate entity (`Entity` of
app/models/database.py, absent from src), restricted to the fields the
screening code reads. Optional fields are `Option String`; Python
truthiness (`if entity.date_of_birth and ...`) also treats an empty
string as absent, see `pyTruthy`. -/
structure Entity where
  name : String
  aliases : List String := []
  dateOfBirth : Option String := none
  nationality : Option String := none
  passportNumber : Option String := none
deriving DecidableEq, Repr

/-- Modelled from the spec: one watchlist record (`SanctionsList` of
app/models/database.py, absent from src), restricted to the fields the
screening code reads. -/
structure SanctionsEntry where
  entityName : String
  aliases : List String := []
  dateOfBirth : Option String := none
  nationality : Option String := none
  passportNumber : Option String := none
deriving DecidableEq, Repr

/-- One match finding, the fields of the dictionary built by
`ScreeningService._create_match_result` that the decision logic reads. -/
structure Match where
  entryName : String
  matchScore : ℚ
  matchType : MatchType
  matchedFields : List String
  riskScore : ℚ
deriving DecidableEq, Repr

/-- `settings.similarity_threshold` default (app/core/config.py line 47). -/
def similarityThreshold : ℚ := 85/100

/-- `settings.fuzzy_threshold` default (app/core/config.py line 51).
Read into `ScreeningService.__init__` / `FuzzyService.__init__` but never
consulted by `_check_single_entry`. -/
def fuzzyThresholdSetting : ℚ := 8/10

/-- `settings.medium_risk_threshold` default (app/core/config.py line 112). -/
def mediumRiskThreshold : ℚ := 7/10

/-- `settings.high_risk_threshold` default (app/core/config.py line 113). -/
def highRiskThreshold : ℚ := 9/10

/-- Python truthiness of an optional string (`if x and y:`):
`None` and the empty string are falsy. -/
def pyTruthy : Option String → Bool
  | none => false
  | some s => s ≠ ""

/-- Python `str.lower()` (ASCII range, the alphabet of every name
compared here), written structurally over the character list so that it
evaluates inside the kernel. -/
def pyLower (s : String) : String := ⟨s.data.map Char.toLower⟩

/-- Python `str.strip()` (whitespace at both ends), written structurally
over the character list. Used only to state the spec's
"identical after whitespace trimming" condition; the screening code never
trims. -/
def pyStrip (s : String) : String :=
  ⟨((s.data.dropWhile Char.isWhitespace).reverse.dropWhile
      Char.isWhitespace).reverse⟩

/-- Python `max(scores) if scores else 0.0`. -/
def pyMax : List ℚ → ℚ
  | [] => 0
  | x :: xs => xs.foldl max x

/-- `FuzzyService.normalize_score`: raw 0..100 ratio scaled to 0..1. -/
def normalizeScore (score : ℚ) : ℚ := score / 100

/-- `ScreeningService._check_exact_match`: case-normalized (`.lower()`)
equality of the primary names, candidate aliases against record aliases or
the record name, and record aliases against the candidate name. No
whitespace trimming is performed anywhere in this function. -/
def checkExactMatch (entity : Entity) (entry : SanctionsEntry) : Bool :=
  let entityAliases := entity.aliases.map pyLower
  let entryAliases := entry.aliases.map pyLower
  (pyLower entity.name == pyLower entry.entityName)
  || entityAliases.any (fun a => entryAliases.contains a || a == pyLower entry.entityName)
  || entryAliases.any (fun a => a == pyLower entity.name)

/-- `ScreeningService._calculate_fuzzy_score`, parametric in the raw
weighted-average ratio `f` (`FuzzyService.calculate_weighted_average_ratio`,
0..100 scale). Scored pairs: the two primary names, and each candidate
alias against each record alias; the maximum of the normalized scores. -/
def calculateFuzzyScore (f : String → String → ℚ)
    (entity : Entity) (entry : SanctionsEntry) : ℚ :=
  let mainScore := normalizeScore (f entity.name entry.entityName)
  let aliasScores := entity.aliases.flatMap
    (fun a => entry.aliases.map (fun b => normalizeScore (f a b)))
  pyMax (mainScore :: aliasScores)

/-- The body of the `try` block of `ScreeningService._calculate_bert_score`,
parametric in the fallible similarity call `sim`
(`nlp_service.calculate_similarity` as seen from the call site: any raised
exception is `Except.error ()`). The first raising pair aborts the whole
computation, exactly as a Python exception leaves the loop. -/
def calculateBertRaw (sim : String → String → Except Unit ℚ)
    (entity : Entity) (entry : SanctionsEntry) : Except Unit ℚ := do
  let mainScore ← sim entity.name entry.entityName
  let pairs := entity.aliases.flatMap (fun a => entry.aliases.map (fun b => (a, b)))
  let aliasScores ← pairs.mapM (fun p => sim p.1 p.2)
  pure (pyMax (mainScore :: aliasScores))

/-- `ScreeningService._calculate_bert_score`: the `try`/`except` wrapper
that degrades any exception to a 0.0 score. -/
def calculateBertScore (sim : String → String → Except Unit ℚ)
    (entity : Entity) (entry : SanctionsEntry) : ℚ :=
  match calculateBertRaw sim entity entry with
  | .ok s => s
  | .error _ => 0

/-- `NLPService.calculate_similarity`: delegates to the raw embedding
provider and catches any exception, returning 0.0 (nlp_service.py
lines 105-131). The provider is the injected fallible scorer. -/
def nlpCalculateSimilarity (provider : String → String → Except Unit ℚ)
    (text1 text2 : String) : ℚ :=
  match provider text1 text2 with
  | .ok s => s
  | .error _ => 0

/-- `ScreeningService._check_additional_fields`: date-of-birth equality
scores 0.9, nationality fuzzy ratio scaled by 0.7, passport equality 0.95;
maximum of whichever were computable, 0.0 when none. Both sides must be
truthy (present and non-empty) for a field to be compared. -/
def checkAdditionalFields (f : String → String → ℚ)
    (entity : Entity) (entry : SanctionsEntry) : ℚ :=
  let dobScores :=
    if pyTruthy entity.dateOfBirth && pyTruthy entry.dateOfBirth
        && (entity.dateOfBirth == entry.dateOfBirth) then [(9:ℚ)/10] else []
  let natScores :=
    match entity.nationality, entry.nationality with
    | some n1, some n2 =>
        if n1 ≠ "" ∧ n2 ≠ "" then [normalizeScore (f n1 n2) * (7/10)] else []
    | _, _ => []
  let passScores :=
    if pyTruthy entity.passportNumber && pyTruthy entry.passportNumber
        && (entity.passportNumber == entry.passportNumber) then [(95:ℚ)/100] else []
  pyMax (dobScores ++ natScores ++ passScores)

/-- `ScreeningService._identify_matched_fields`. -/
def identifyMatchedFields (entity : Entity) (entry : SanctionsEntry) : List String :=
  (if pyLower entity.name == pyLower entry.entityName then ["name"] else [])
  ++ (if pyTruthy entity.dateOfBirth && pyTruthy entry.dateOfBirth
        && (entity.dateOfBirth == entry.dateOfBirth) then ["date_of_birth"] else [])
  ++ (match entity.nationality, entry.nationality with
      | some n1, some n2 =>
          if n1 ≠ "" ∧ n2 ≠ "" ∧ pyLower n1 = pyLower n2 then ["nationality"] else []
      | _, _ => [])
  ++ (if pyTruthy entity.passportNumber && pyTruthy entry.passportNumber
        && (entity.passportNumber == entry.passportNumber) then ["passport_number"] else [])

/-- `ScreeningService._create_match_result`, restricted to the fields the
decision logic reads. -/
def createMatchResult (entity : Entity) (entry : SanctionsEntry)
    (matchScore : ℚ) (matchType : MatchType) (riskScore : ℚ) : Match :=
  { entryName := entry.entityName
    matchScore := matchScore
    matchType := matchType
    matchedFields := identifyMatchedFields entity entry
    riskScore := riskScore }

/-- `ScreeningService._check_single_entry`: exact, then fuzzy, then
semantic, then additional fields, each tested against the one `threshold`
argument; first clearing strategy wins, else no finding. -/
def checkSingleEntry (f : String → String → ℚ)
    (sim : String → String → Except Unit ℚ)
    (entity : Entity) (entry : SanctionsEntry) (threshold : ℚ) : Option Match :=
  if checkExactMatch entity entry then
    some (createMatchResult entity entry 1 MatchType.exact 1)
  else
    let fuzzyScore := calculateFuzzyScore f entity entry
    if threshold ≤ fuzzyScore then
      some (createMatchResult entity entry fuzzyScore MatchType.fuzzy fuzzyScore)
    else
      let bertScore := calculateBertScore sim entity entry
      if threshold ≤ bertScore then
        some (createMatchResult entity entry bertScore MatchType.bert bertScore)
      else
        let additionalScore := checkAdditionalFields f entity entry
        if threshold ≤ additionalScore then
          some (createMatchResult entity entry additionalScore MatchType.fuzzy additionalScore)
        else
          none

/-- `threshold = threshold_override or self.similarity_threshold`
(screening_service.py line 128): Python `or` falls back on `None` and on
the falsy value `0.0`. -/
def effectiveThreshold (override : Option ℚ) : ℚ :=
  match override with
  | none => similarityThreshold
  | some t => if t = 0 then similarityThreshold else t

/-- The record loop of `ScreeningService._perform_screening`, before the
final sort: every entry is checked and the findings collected in order. -/
def collectMatches (f : String → String → ℚ)
    (sim : String → String → Except Unit ℚ)
    (entity : Entity) (entries : List SanctionsEntry) (threshold : ℚ) : List Match :=
  entries.filterMap (fun entry => checkSingleEntry f sim entity entry threshold)

/-- `ScreeningService._perform_screening`: collect findings over all
entries, then stable-sort descending by risk score
(`findings.sort(key=..., reverse=True)`). -/
def performScreening (f : String → String → ℚ)
    (sim : String → String → Except Unit ℚ)
    (entity : Entity) (entries : List SanctionsEntry)
    (override : Option ℚ) : List Match :=
  (collectMatches f sim entity entries (effectiveThreshold override)).mergeSort
    (fun a b => decide (b.riskScore ≤ a.riskScore))

/-- The risk-aggregation loop of
`ScreeningService._calculate_risk_and_decision` (lines 334-343): each
finding's weight is its own risk score, and a zero total weight is guarded
to a 0.0 risk. -/
def overallRisk (findings : List Match) : ℚ :=
  let totalWeight := (findings.map (·.riskScore)).sum
  let weightedSum := (findings.map (fun m => m.riskScore * m.riskScore)).sum
  if 0 < totalWeight then weightedSum / totalWeight else 0

/-- `ScreeningService._calculate_risk_and_decision`: empty findings give
(0.0, clear, 1.0); otherwise the risk-contribution-self-weighted average
is classified at the hardcoded 0.9 / 0.7 boundaries. -/
def calculateRiskAndDecision (findings : List Match) : ℚ × DecisionType × ℚ :=
  if findings = [] then (0, DecisionType.clear, 1)
  else
    if 9/10 ≤ overallRisk findings then
      (overallRisk findings, DecisionType.block, 95/100)
    else if 7/10 ≤ overallRisk findings then
      (overallRisk findings, DecisionType.review, 85/100)
    else (overallRisk findings, DecisionType.clear, 9/10)

/-
Payment screening orchestrator (app/services/payment_screening_service.py).
-/

/-- One side's outcome of the `asyncio.gather(..., return_exceptions=True)`
call in `_process_payment_message`: either a completed screening — the
(truthy) response dictionary built by `_prepare_screening_response`, of
which only its `overall_risk_score` value matters downstream — or a raised
exception returned as a value by `gather`. -/
inductive PartyOutcome where
  | ok (riskScore : ℚ)
  | exc
deriving DecidableEq, Repr

/-- The per-side risk extraction of `_determine_payment_decision`:
`x.overall_risk_score if x and not isinstance(x, Exception) else 0.0`.
For an exception the conditional short-circuits to 0.0 without touching
the value; for a completed side the value is the plain dictionary from
`_prepare_screening_response`, so the attribute read
`x.overall_risk_score` raises `AttributeError` — modelled as
`Except.error`. -/
def partyRiskRead : PartyOutcome → Except Unit ℚ
  | .exc => .ok 0
  | .ok _ => .error ()

/-- The screening result carried by a completed side, `None` when that
side's gather slot holds an exception (payment_screening_service.py
lines 118-119). -/
def partyResult : PartyOutcome → Option ℚ
  | .ok r => some r
  | .exc => none

/-- The `try` body of `_determine_payment_decision` (lines 185-203):
extract the two risks in order (each extraction may raise, see
`partyRiskRead`), take their maximum, and classify it at
`settings.high_risk_threshold` / `settings.medium_risk_threshold`. -/
def determinePaymentDecisionTry (sender recipient : PartyOutcome) :
    Except Unit (ℚ × DecisionType × PaymentStatus) := do
  let senderRisk ← partyRiskRead sender
  let recipientRisk ← partyRiskRead recipient
  let overallRiskScore := max senderRisk recipientRisk
  if highRiskThreshold ≤ overallRiskScore then
    pure (overallRiskScore, DecisionType.block, PaymentStatus.blocked)
  else if mediumRiskThreshold ≤ overallRiskScore then
    pure (overallRiskScore, DecisionType.review, PaymentStatus.screening)
  else
    pure (overallRiskScore, DecisionType.clear, PaymentStatus.approved)

/-- `PaymentScreeningService._determine_payment_decision` including its
`except` handler (lines 205-207), which catches the `AttributeError` from
reading `overall_risk_score` off a completed side's dictionary and
returns `(1.0, BLOCK, ERROR)`. -/
def determinePaymentDecision (sender recipient : PartyOutcome) :
    ℚ × DecisionType × PaymentStatus :=
  match determinePaymentDecisionTry sender recipient with
  | .ok r => r
  | .error _ => (1, DecisionType.block, PaymentStatus.error)

/-- The fields of a published `PaymentScreeningResult` the claims are
about (the schema module is absent from src; fields follow the
constructor calls in `_process_payment_message`). -/
structure PaymentResult where
  senderScreening : Option ℚ
  recipientScreening : Option ℚ
  overallRiskScore : ℚ
  decision : DecisionType
  status : PaymentStatus
  processingTimeMs : ℤ
deriving DecidableEq, Repr

/-- `PaymentScreeningService.processing_stats` together with
`processing_times` (the bounded latency window). -/
structure ProcessingStats where
  totalProcessed : ℕ
  approved : ℕ
  rejected : ℕ
  blocked : ℕ
  errors : ℕ
  processingTimes : List ℤ
  avgProcessingTimeMs : ℤ
deriving DecidableEq, Repr

/-- The all-zero statistics the service starts with. -/
def initialStats : ProcessingStats :=
  { totalProcessed := 0, approved := 0, rejected := 0, blocked := 0
    errors := 0, processingTimes := [], avgProcessingTimeMs := 0 }

/-- `PaymentScreeningService._update_statistics`: increment the total,
append to the latency window keeping only the last 1000 entries, bump the
counter matching the decision, and recompute the floor-average latency. -/
def updateStatistics (st : ProcessingStats) (result : PaymentResult) :
    ProcessingStats :=
  let appended := st.processingTimes ++ [result.processingTimeMs]
  let window := if 1000 < appended.length
    then appended.drop (appended.length - 1000) else appended
  { totalProcessed := st.totalProcessed + 1
    approved := if result.decision = DecisionType.clear then st.approved + 1 else st.approved
    rejected := if result.decision = DecisionType.review then st.rejected + 1 else st.rejected
    blocked := if result.decision = DecisionType.block then st.blocked + 1 else st.blocked
    errors := st.errors
    processingTimes := window
    avgProcessingTimeMs := window.sum.fdiv window.length }

/-- The success path of `_process_payment_message` (lines 97-140): combine
the two gather outcomes, build one `PaymentScreeningResult`, update the
statistics once, publish the result once. Returns the published results
and the new statistics. -/
def processPaymentSuccess (sender recipient : PartyOutcome)
    (elapsedMs : ℤ) (st : ProcessingStats) :
    List PaymentResult × ProcessingStats :=
  let combined := determinePaymentDecision sender recipient
  let result : PaymentResult :=
    { senderScreening := partyResult sender
      recipientScreening := partyResult recipient
      overallRiskScore := combined.1
      decision := combined.2.1
      status := combined.2.2
      processingTimeMs := elapsedMs }
  ([result], updateStatistics st result)

/-- The `except` handler of `_process_payment_message` (lines 142-158):
increments only the error counter, then publishes one BLOCK/ERROR result
with risk 1.0; `_update_statistics` is never called on this path. -/
def processPaymentError (elapsedMs : ℤ) (st : ProcessingStats) :
    List PaymentResult × ProcessingStats :=
  let st' := { st with errors := st.errors + 1 }
  let errorResult : PaymentResult :=
    { senderScreening := none
      recipientScreening := none
      overallRiskScore := 1
      decision := DecisionType.block
      status := PaymentStatus.error
      processingTimeMs := elapsedMs }
  ([errorResult], st')

/-- `PaymentScreeningService._process_payment_message`. `gather` with
`return_exceptions=True` never raises, so screening exceptions take the
success path; `bodyOk = false` models an exception raised inside the `try`
body itself (e.g. result-schema validation, a module absent from src),
which is the only way into the `except` handler. -/
def processPaymentMessage (sender recipient : PartyOutcome) (bodyOk : Bool)
    (elapsedMs : ℤ) (st : ProcessingStats) :
    List PaymentResult × ProcessingStats :=
  if bodyOk then processPaymentSuccess sender recipient elapsedMs st
  else processPaymentError elapsedMs st

/-
Shared helpers for the theorems below.
-/

/-- A finding carrying a single risk contribution, used to instantiate the
screening decision engine at a chosen aggregate risk. -/
def mkRiskMatch (q : ℚ) : Match :=
  { entryName := "", matchScore := q, matchType := MatchType.fuzzy
    matchedFields := [], riskScore := q }

lemma calculateRiskAndDecision_fst (findings : List Match)
    (h : findings ≠ []) :
    (calculateRiskAndDecision findings).1 = overallRisk findings := by
  simp only [calculateRiskAndDecision, if_neg h]
  split
  · rfl
  · split
    · rfl
    · rfl

lemma overallRisk_single (q : ℚ) (hq : 0 ≤ q) :
    overallRisk [mkRiskMatch q] = q := by
  simp only [overallRisk, mkRiskMatch, List.map_cons, List.map_nil,
    List.sum_cons, List.sum_nil, add_zero]
  rcases eq_or_lt_of_le hq with h | h
  · simp [← h]
  · rw [if_pos h, mul_div_assoc, div_self (ne_of_gt h), mul_one]

/-- **C2.** The screening decision is a total deterministic function of
the aggregate risk score: risk ≥ 0.9 blocks with confidence 0.95 (the 0.9
boundary included), 0.7 ≤ risk < 0.9 reviews with confidence 0.85 (the
0.7 boundary included), risk < 0.7 clears with confidence 0.90, and an
empty finding list yields risk 0.0, decision clear, confidence 1.0. -/
theorem spec_c2_decision_thresholds (findings : List Match) :
    (findings = [] → calculateRiskAndDecision findings = (0, DecisionType.clear, 1)) ∧
    (findings ≠ [] →
      (9/10 ≤ (calculateRiskAndDecision findings).1 →
        (calculateRiskAndDecision findings).2 = (DecisionType.block, 95/100)) ∧
      (7/10 ≤ (calculateRiskAndDecision findings).1 ∧
          (calculateRiskAndDecision findings).1 < 9/10 →
        (calculateRiskAndDecision findings).2 = (DecisionType.review, 85/100)) ∧
      ((calculateRiskAndDecision findings).1 < 7/10 →
        (calculateRiskAndDecision findings).2 = (DecisionType.clear, 9/10))) := by
  refine ⟨fun h => by simp [calculateRiskAndDecision, h], fun h => ?_⟩
  rw [calculateRiskAndDecision_fst findings h]
  simp only [calculateRiskAndDecision, if_neg h]
  rcases le_or_lt (9/10 : ℚ) (overallRisk findings) with h9 | h9
  · rw [if_pos h9]
    exact ⟨fun _ => rfl, fun hc => absurd h9 (not_le.mpr hc.2), fun hc => by linarith⟩
  · rw [if_neg (not_le.mpr h9)]
    rcases le_or_lt (7/10 : ℚ) (overallRisk findings) with h7 | h7
    · rw [if_pos h7]
      exact ⟨fun hc => by linarith, fun _ => rfl, fun hc => by linarith⟩
    · rw [if_neg (not_le.mpr h7)]
      exact ⟨fun hc => by linarith, fun hc => by linarith, fun _ => rfl⟩

/-- Witness for C2 at concrete inputs: the empty list, and a single
finding of risk 0.95 which blocks with confidence 0.95. -/
theorem spec_c2_decision_thresholds_witness :
    calculateRiskAndDecision [] = (0, DecisionType.clear, 1) ∧
    (calculateRiskAndDecision [mkRiskMatch (95/100)]).2 =
      (DecisionType.block, 95/100) :=
  ⟨(spec_c2_decision_thresholds []).1 rfl,
   ((spec_c2_decision_thresholds [mkRiskMatch (95/100)]).2 (by simp)).1
     (by rw [calculateRiskAndDecision_fst _ (by simp),
             overallRisk_single _ (by norm_num)]; norm_num)⟩

/-- **C3 (code defect).** The claim's max-of-risks combination is
unreachable for completed screenings: a completed side is the response
dictionary, the attribute read in `_determine_payment_decision` raises
`AttributeError`, and the `except` handler returns `(1.0, BLOCK, ERROR)`
for every pair of completed sides — in particular the claim's own example
(sender 0.95, recipient 0.1) yields risk 1.0 with status error, not the
threshold classification of max = 0.95. -/
theorem spec_c3_attribute_error :
    (∀ s r : ℚ, determinePaymentDecision (.ok s) (.ok r) =
      (1, DecisionType.block, PaymentStatus.error)) ∧
    determinePaymentDecisionTry (.ok (95/100)) (.ok (1/10)) =
      Except.error () ∧
    determinePaymentDecision (.ok (95/100)) (.ok (1/10)) =
      (1, DecisionType.block, PaymentStatus.error) :=
  ⟨fun _ _ => rfl, rfl, rfl⟩

/-- **C7.** For a non-empty finding list with positive total risk weight,
the aggregate risk score is the self-weighted average
`sum(c_i * c_i) / sum(c_i)` of the finding risk contributions. -/
theorem spec_c7_weighted_average (findings : List Match)
    (h : findings ≠ [])
    (hw : 0 < (findings.map (·.riskScore)).sum) :
    (calculateRiskAndDecision findings).1 =
      (findings.map (fun m => m.riskScore * m.riskScore)).sum /
        (findings.map (·.riskScore)).sum := by
  rw [calculateRiskAndDecision_fst findings h]
  simp only [overallRisk]
  rw [if_pos hw]

/-- Witness for C7: two findings of risk 1/2 and 1/4 aggregate to
((1/2)² + (1/4)²) / (1/2 + 1/4) = 5/12. -/
theorem spec_c7_weighted_average_witness :
    (calculateRiskAndDecision [mkRiskMatch (1/2), mkRiskMatch (1/4)]).1 =
      (([mkRiskMatch (1/2), mkRiskMatch (1/4)].map
          (fun m => m.riskScore * m.riskScore)).sum /
        ([mkRiskMatch (1/2), mkRiskMatch (1/4)].map (·.riskScore)).sum) :=
  spec_c7_weighted_average [mkRiskMatch (1/2), mkRiskMatch (1/4)]
    (by simp) (by norm_num [mkRiskMatch])

/-- **C1.** When the screening of one side raises while the other side
completes, the combined decision is never clear/approved: the exception
side short-circuits to risk 0.0, but reading `overall_risk_score` off the
completed side's response dictionary raises `AttributeError`, and
`_determine_payment_decision`'s handler records the error by returning
combined risk 1.0 with decision block and terminal status error — the one
published result is fail-closed, whichever side failed. -/
theorem spec_c1_fail_closed (q : ℚ) (t : ℤ) (st : ProcessingStats) :
    ((processPaymentMessage PartyOutcome.exc (PartyOutcome.ok q) true t st).1.map
        (fun res => (res.overallRiskScore, res.decision, res.status)) =
      [(1, DecisionType.block, PaymentStatus.error)]) ∧
    ((processPaymentMessage (PartyOutcome.ok q) PartyOutcome.exc true t st).1.map
        (fun res => (res.overallRiskScore, res.decision, res.status)) =
      [(1, DecisionType.block, PaymentStatus.error)]) ∧
    (determinePaymentDecision PartyOutcome.exc (PartyOutcome.ok q)).2.1
      = DecisionType.block ∧
    (determinePaymentDecision (PartyOutcome.ok q) PartyOutcome.exc).2.2
      = PaymentStatus.error :=
  ⟨rfl, rfl, rfl, rfl⟩

/-- **C8 (counterexample).** The claim says every terminal transition,
the error path included, applies one full statistics update. On the error
path the code only increments the error counter: one result is published
but the total-processed counter stays 0 and nothing is appended to the
latency window. -/
theorem spec_c8_counterexample :
    (processPaymentMessage PartyOutcome.exc (PartyOutcome.ok 0) false 5 initialStats).1.length
      = 1 ∧
    (processPaymentMessage PartyOutcome.exc (PartyOutcome.ok 0) false 5 initialStats).2.totalProcessed
      = 0 ∧
    (processPaymentMessage PartyOutcome.exc (PartyOutcome.ok 0) false 5 initialStats).2.processingTimes
      = [] ∧
    (processPaymentMessage PartyOutcome.exc (PartyOutcome.ok 0) false 5 initialStats).2.errors
      = 1 := by
  refine ⟨rfl, rfl, rfl, rfl⟩

/-- **C8 (amended).** Every terminal transition publishes exactly one
result. A success-path terminal transition additionally applies exactly
one full statistics update: the total is incremented, the latency window
grows by the new measurement (bounded at 1000, oldest entries evicted),
exactly the counter matching the decision is incremented, and the error
counter is untouched. The error path instead only increments the error
counter, leaving every other statistic unchanged. -/
theorem spec_c8_amended (sender recipient : PartyOutcome) (bodyOk : Bool)
    (t : ℤ) (st : ProcessingStats) :
    (processPaymentMessage sender recipient bodyOk t st).1.length = 1 ∧
    (bodyOk = true →
      (processPaymentMessage sender recipient bodyOk t st).2.totalProcessed
        = st.totalProcessed + 1 ∧
      (processPaymentMessage sender recipient bodyOk t st).2.errors = st.errors ∧
      (processPaymentMessage sender recipient bodyOk t st).2.processingTimes.length
        = min (st.processingTimes.length + 1) 1000 ∧
      (st.processingTimes.length < 1000 →
        (processPaymentMessage sender recipient bodyOk t st).2.processingTimes
          = st.processingTimes ++ [t]) ∧
      (processPaymentMessage sender recipient bodyOk t st).2.approved
        + (processPaymentMessage sender recipient bodyOk t st).2.rejected
        + (processPaymentMessage sender recipient bodyOk t st).2.blocked
        = st.approved + st.rejected + st.blocked + 1) ∧
    (bodyOk = false →
      (processPaymentMessage sender recipient bodyOk t st).2
        = { st with errors := st.errors + 1 } ∧
      ∀ res ∈ (processPaymentMessage sender recipient bodyOk t st).1,
        res.status = PaymentStatus.error ∧ res.decision = DecisionType.block ∧
        res.overallRiskScore = 1) := by
  cases bodyOk
  · refine ⟨rfl, fun h => by simp at h, fun _ => ⟨rfl, ?_⟩⟩
    intro res hres
    simp only [processPaymentMessage, Bool.false_eq_true, if_neg, ite_false,
      processPaymentError, List.mem_singleton] at hres
    subst hres
    exact ⟨rfl, rfl, rfl⟩
  · refine ⟨rfl, fun _ => ?_, fun h => by simp at h⟩
    simp only [processPaymentMessage, ite_true, processPaymentSuccess,
      updateStatistics]
    refine ⟨by trivial, by trivial, ?_, ?_, ?_⟩
    · set appended := st.processingTimes ++ [t] with happ
      have hlen : appended.length = st.processingTimes.length + 1 := by
        simp [happ]
      by_cases hbig : 1000 < appended.length
      · rw [if_pos hbig]
        simp only [List.length_drop]
        omega
      · rw [if_neg hbig]
        omega
    · intro hsmall
      set appended := st.processingTimes ++ [t] with happ
      have hlen : appended.length = st.processingTimes.length + 1 := by
        simp [happ]
      rw [if_neg (by omega)]
    · rcases hdec : (determinePaymentDecision sender recipient).2.1
      · simp [hdec]
        omega
      · simp [hdec]
        omega
      · simp [hdec]
        omega

/-- Witness for the amended C8 on both paths at concrete inputs: the
success path increments the total and appends the latency, the error path
only bumps the error counter while still publishing one result. -/
theorem spec_c8_amended_witness :
    (processPaymentMessage (PartyOutcome.ok 0) (PartyOutcome.ok 0) true 7 initialStats).1.length
      = 1 ∧
    (processPaymentMessage (PartyOutcome.ok 0) (PartyOutcome.ok 0) true 7 initialStats).2.totalProcessed
      = initialStats.totalProcessed + 1 ∧
    (processPaymentMessage (PartyOutcome.ok 0) (PartyOutcome.ok 0) true 7 initialStats).2.processingTimes
      = initialStats.processingTimes ++ [7] ∧
    (processPaymentMessage (PartyOutcome.ok 0) (PartyOutcome.ok 0) false 7 initialStats).2
      = { initialStats with errors := initialStats.errors + 1 } := by
  refine ⟨(spec_c8_amended (PartyOutcome.ok 0) (PartyOutcome.ok 0) true 7 initialStats).1,
    ((spec_c8_amended (PartyOutcome.ok 0) (PartyOutcome.ok 0) true 7 initialStats).2.1 rfl).1,
    ((spec_c8_amended (PartyOutcome.ok 0) (PartyOutcome.ok 0) true 7 initialStats).2.1 rfl).2.2.2.1
      (by simp [initialStats]),
    ((spec_c8_amended (PartyOutcome.ok 0) (PartyOutcome.ok 0) false 7 initialStats).2.2 rfl).1⟩

/-
Maximum characterization of `pyMax` on non-empty lists.
-/

lemma foldl_max_mem (x : ℚ) (xs : List ℚ) : xs.foldl max x ∈ x :: xs := by
  induction xs generalizing x with
  | nil => simp
  | cons y ys ih =>
    simp only [List.foldl_cons]
    rcases List.mem_cons.mp (ih (max x y)) with h | h
    · rw [h]
      rcases max_choice x y with hm | hm
      · rw [hm]
        exact List.mem_cons_self x (y :: ys)
      · rw [hm]
        exact List.mem_cons_of_mem x (List.mem_cons_self y ys)
    · exact List.mem_cons_of_mem x (List.mem_cons_of_mem y h)

lemma le_foldl_max (x : ℚ) (xs : List ℚ) :
    ∀ y ∈ x :: xs, y ≤ xs.foldl max x := by
  induction xs generalizing x with
  | nil =>
    intro y hy
    simp at hy
    simp [hy]
  | cons z zs ih =>
    intro y hy
    simp only [List.foldl_cons]
    rcases List.mem_cons.mp hy with h | h
    · subst h
      exact le_trans (le_max_left y z) (ih (max y z) _ (List.mem_cons_self _ _))
    · rcases List.mem_cons.mp h with h' | h'
      · subst h'
        exact le_trans (le_max_right x y) (ih (max x y) _ (List.mem_cons_self _ _))
      · exact ih (max x z) y (List.mem_cons_of_mem _ h')

lemma pyMax_mem (x : ℚ) (xs : List ℚ) : pyMax (x :: xs) ∈ x :: xs :=
  foldl_max_mem x xs

lemma le_pyMax (x : ℚ) (xs : List ℚ) : ∀ y ∈ x :: xs, y ≤ pyMax (x :: xs) :=
  le_foldl_max x xs

/-
C4: exact-match short-circuit.
-/

/-- The exact-match condition as the claim states it: names identical
after case normalization, identical after whitespace trimming, or matched
via cross-comparison of either side's alias lists. Written from the
claim's words, to be compared against `checkExactMatch`. -/
def specExactCondition (entity : Entity) (entry : SanctionsEntry) : Bool :=
  (pyLower entity.name == pyLower entry.entityName)
  || (pyLower (pyStrip entity.name) == pyLower (pyStrip entry.entityName))
  || (entity.aliases.map pyLower).any (fun a =>
        (entry.aliases.map pyLower).contains a || a == pyLower entry.entityName)
  || (entry.aliases.map pyLower).any (fun a => a == pyLower entity.name)

/-- **C4 (counterexample).** "John Smith " and "John Smith" are identical
after whitespace trimming, so the claim requires an exact finding; the
code never trims, the exact check fails, and (with scorers that resolve
nothing else) the Entry Evaluator returns no finding at all. -/
theorem spec_c4_counterexample :
    specExactCondition ⟨"John Smith ", [], none, none, none⟩
      ⟨"John Smith", [], none, none, none⟩ = true ∧
    checkSingleEntry (fun _ _ => 0) (fun _ _ => Except.ok 0)
      ⟨"John Smith ", [], none, none, none⟩ ⟨"John Smith", [], none, none, none⟩
      (effectiveThreshold none) = none := by
  constructor
  · decide
  · have hex : checkExactMatch ⟨"John Smith ", [], none, none, none⟩
        ⟨"John Smith", [], none, none, none⟩ = false := by decide
    have hfz : calculateFuzzyScore (fun _ _ => 0)
        ⟨"John Smith ", [], none, none, none⟩
        ⟨"John Smith", [], none, none, none⟩ = 0 := by
      norm_num [calculateFuzzyScore, normalizeScore, pyMax]
    have hbs : calculateBertScore (fun _ _ => Except.ok 0)
        ⟨"John Smith ", [], none, none, none⟩
        ⟨"John Smith", [], none, none, none⟩ = 0 := rfl
    have haf : checkAdditionalFields (fun _ _ => 0)
        ⟨"John Smith ", [], none, none, none⟩
        ⟨"John Smith", [], none, none, none⟩ = 0 := rfl
    simp only [checkSingleEntry, hex, hfz, hbs, haf, Bool.false_eq_true,
      if_false]
    norm_num [effectiveThreshold, similarityThreshold]

/-- The exact condition actually implemented: case-normalized equality or
alias cross-comparison, with no whitespace trimming, in propositional
form. -/
def caseOrAliasIdentical (entity : Entity) (entry : SanctionsEntry) : Prop :=
  pyLower entity.name = pyLower entry.entityName ∨
  (∃ a ∈ entity.aliases,
    (∃ b ∈ entry.aliases, pyLower b = pyLower a) ∨
      pyLower a = pyLower entry.entityName) ∨
  (∃ b ∈ entry.aliases, pyLower b = pyLower entity.name)

lemma caseOrAliasIdentical_iff (entity : Entity) (entry : SanctionsEntry) :
    caseOrAliasIdentical entity entry ↔ checkExactMatch entity entry = true := by
  simp [caseOrAliasIdentical, checkExactMatch, List.any_eq_true,
    List.mem_map, List.contains_iff_exists_mem_beq]
  exact or_assoc.symm

/-- **C4 (amended).** For every pair whose names are identical after case
normalization (no whitespace trimming) or matched via cross-comparison of
the alias lists, the Entry Evaluator short-circuits before any fuzzy or
semantic scoring — the result is independent of both scorers and of the
threshold — and returns an exact finding with confidence 1.0 and risk
contribution 1.0. -/
theorem spec_c4_amended (f : String → String → ℚ)
    (sim : String → String → Except Unit ℚ) (threshold : ℚ)
    (entity : Entity) (entry : SanctionsEntry)
    (h : caseOrAliasIdentical entity entry) :
    checkSingleEntry f sim entity entry threshold =
      some { entryName := entry.entityName
             matchScore := 1
             matchType := MatchType.exact
             matchedFields := identifyMatchedFields entity entry
             riskScore := 1 } := by
  have hex : checkExactMatch entity entry = true :=
    (caseOrAliasIdentical_iff entity entry).mp h
  simp [checkSingleEntry, hex, createMatchResult]

/-- Witness for the amended C4: "John Smith" against watchlist entry
"john smith" yields the exact finding regardless of scorers. -/
theorem spec_c4_amended_witness :
    checkSingleEntry (fun _ _ => 0) (fun _ _ => Except.ok 0)
      ⟨"John Smith", [], none, none, none⟩ ⟨"john smith", [], none, none, none⟩
      (effectiveThreshold none) =
      some { entryName := "john smith"
             matchScore := 1
             matchType := MatchType.exact
             matchedFields := ["name"]
             riskScore := 1 } := by
  rw [spec_c4_amended (fun _ _ => 0) (fun _ _ => Except.ok 0)
    (effectiveThreshold none) ⟨"John Smith", [], none, none, none⟩
    ⟨"john smith", [], none, none, none⟩ (Or.inl (by decide))]
  decide

/-
C5: which name pairs feed the per-record maximum.
-/

/-- The claim's lexical score: maximum over the full cartesian product
({primary} ∪ aliases) × ({record primary} ∪ record aliases). Written from
the claim's words, to be compared against `calculateFuzzyScore`. -/
def specCartesianFuzzy (f : String → String → ℚ)
    (entity : Entity) (entry : SanctionsEntry) : ℚ :=
  pyMax ((entity.name :: entity.aliases).flatMap
    (fun a => (entry.entityName :: entry.aliases).map
      (fun b => normalizeScore (f a b))))

/-- The claim's semantic score: maximum over the same full cartesian
product of provider scores. Written from the claim's words, to be
compared against `calculateBertScore`. -/
def specCartesianSem (g : String → String → ℚ)
    (entity : Entity) (entry : SanctionsEntry) : ℚ :=
  pyMax ((entity.name :: entity.aliases).flatMap
    (fun a => (entry.entityName :: entry.aliases).map (fun b => g a b)))

lemma list_mapM_except_ok {α β : Type} (h : α → β) (l : List α) :
    (l.mapM (fun x => (Except.ok (h x) : Except Unit β)))
      = Except.ok (l.map h) := by
  induction l with
  | nil => rfl
  | cons x xs ih =>
    rw [List.mapM_cons, ih]
    rfl

/-- `_calculate_bert_score` under a provider that never raises: the
maximum of the primary-name pair score and the alias-pair scores. -/
lemma calculateBertScore_ok (g : String → String → ℚ)
    (entity : Entity) (entry : SanctionsEntry) :
    calculateBertScore (fun a b => Except.ok (g a b)) entity entry =
      pyMax (g entity.name entry.entityName ::
        entity.aliases.flatMap (fun a => entry.aliases.map (fun b => g a b))) := by
  simp only [calculateBertScore, calculateBertRaw, bind, Except.bind,
    list_mapM_except_ok (fun p : String × String => g p.1 p.2), pure,
    Except.pure, List.map_flatMap, List.map_map]
  rfl

/-- **C5 (counterexample).** With candidate "ab" (no aliases) and record
"xy" with alias "ab", the claim's cartesian maximum is 1.0 (the candidate
primary equals a record alias) for both strategies, but the code never
compares a primary name against the other side's aliases and scores 0. -/
theorem spec_c5_counterexample :
    calculateFuzzyScore (fun a b => if a == b then 100 else 0)
      ⟨"ab", [], none, none, none⟩ ⟨"xy", ["ab"], none, none, none⟩ = 0 ∧
    specCartesianFuzzy (fun a b => if a == b then 100 else 0)
      ⟨"ab", [], none, none, none⟩ ⟨"xy", ["ab"], none, none, none⟩ = 1 ∧
    calculateBertScore (fun a b => Except.ok (if a == b then 1 else 0))
      ⟨"ab", [], none, none, none⟩ ⟨"xy", ["ab"], none, none, none⟩ = 0 ∧
    specCartesianSem (fun a b => if a == b then 1 else 0)
      ⟨"ab", [], none, none, none⟩ ⟨"xy", ["ab"], none, none, none⟩ = 1 := by
  refine ⟨?_, ?_, ?_, ?_⟩
  · simp +decide [calculateFuzzyScore, normalizeScore, pyMax]
  · simp +decide [specCartesianFuzzy, normalizeScore, pyMax]
  · rfl
  · simp +decide [specCartesianSem, pyMax]

/-- **C5 (amended).** For each strategy, the per-record score is the
maximum over {(candidate primary, record primary)} together with the
cartesian product of the two alias lists only: the score is a member of
that pair-score list and an upper bound of it. Primary-versus-alias pairs
are not part of the comparison. -/
theorem spec_c5_amended (f g : String → String → ℚ)
    (entity : Entity) (entry : SanctionsEntry) :
    (calculateFuzzyScore f entity entry ∈
        normalizeScore (f entity.name entry.entityName) ::
          entity.aliases.flatMap
            (fun a => entry.aliases.map (fun b => normalizeScore (f a b))) ∧
      ∀ s ∈ normalizeScore (f entity.name entry.entityName) ::
          entity.aliases.flatMap
            (fun a => entry.aliases.map (fun b => normalizeScore (f a b))),
        s ≤ calculateFuzzyScore f entity entry) ∧
    (calculateBertScore (fun a b => Except.ok (g a b)) entity entry ∈
        g entity.name entry.entityName ::
          entity.aliases.flatMap (fun a => entry.aliases.map (fun b => g a b)) ∧
      ∀ s ∈ g entity.name entry.entityName ::
          entity.aliases.flatMap (fun a => entry.aliases.map (fun b => g a b)),
        s ≤ calculateBertScore (fun a b => Except.ok (g a b)) entity entry) := by
  refine ⟨⟨?_, ?_⟩, ?_, ?_⟩
  · exact pyMax_mem _ _
  · exact le_pyMax _ _
  · rw [calculateBertScore_ok]
    exact pyMax_mem _ _
  · rw [calculateBertScore_ok]
    exact le_pyMax _ _

/-- Witness for the amended C5: with a constant raw ratio of 50 and no
aliases, the fuzzy score is the sole pair score 0.5 and bounds it. -/
theorem spec_c5_amended_witness :
    calculateFuzzyScore (fun _ _ => 50)
        ⟨"ab", [], none, none, none⟩ ⟨"xy", [], none, none, none⟩
      ∈ [normalizeScore 50] ∧
    normalizeScore 50 ≤ calculateFuzzyScore (fun _ _ => 50)
        ⟨"ab", [], none, none, none⟩ ⟨"xy", [], none, none, none⟩ := by
  constructor
  · have h := (spec_c5_amended (fun _ _ => 50) (fun _ _ => 0)
      ⟨"ab", [], none, none, none⟩ ⟨"xy", [], none, none, none⟩).1.1
    simpa using h
  · exact (spec_c5_amended (fun _ _ => 50) (fun _ _ => 0)
      ⟨"ab", [], none, none, none⟩ ⟨"xy", [], none, none, none⟩).1.2 _
      (List.mem_cons_self _ _)

/-
C6: which threshold gates the fuzzy strategy.
-/

/-- **C6 (counterexample).** With a raw ratio of 80 the fuzzy score is
0.8, exactly the configured fuzzy threshold, and there is no exact match;
the claim requires a fuzzy finding, but `_check_single_entry` compares the
fuzzy score against `threshold_override or similarity_threshold` (0.85
by default) — `settings.fuzzy_threshold` is never consulted — so no
finding is produced at all. -/
theorem spec_c6_counterexample :
    fuzzyThresholdSetting ≤ calculateFuzzyScore (fun _ _ => 80)
      ⟨"ab", [], none, none, none⟩ ⟨"cd", [], none, none, none⟩ ∧
    checkExactMatch ⟨"ab", [], none, none, none⟩
      ⟨"cd", [], none, none, none⟩ = false ∧
    checkSingleEntry (fun _ _ => 80) (fun _ _ => Except.ok 0)
      ⟨"ab", [], none, none, none⟩ ⟨"cd", [], none, none, none⟩
      (effectiveThreshold none) = none := by
  have hfz : calculateFuzzyScore (fun _ _ => 80)
      ⟨"ab", [], none, none, none⟩ ⟨"cd", [], none, none, none⟩ = 8/10 := by
    norm_num [calculateFuzzyScore, normalizeScore, pyMax]
  have hex : checkExactMatch ⟨"ab", [], none, none, none⟩
      ⟨"cd", [], none, none, none⟩ = false := by decide
  refine ⟨by rw [hfz]; norm_num [fuzzyThresholdSetting], hex, ?_⟩
  have hbs : calculateBertScore (fun _ _ => Except.ok 0)
      ⟨"ab", [], none, none, none⟩ ⟨"cd", [], none, none, none⟩ = 0 := rfl
  have haf : checkAdditionalFields (fun _ _ => 80)
      ⟨"ab", [], none, none, none⟩ ⟨"cd", [], none, none, none⟩ = 0 := rfl
  simp only [checkSingleEntry, hex, hfz, hbs, haf, Bool.false_eq_true,
    if_false]
  norm_num [effectiveThreshold, similarityThreshold, fuzzyThresholdSetting]

/-- **C6 (amended).** In step 2 the lexical fuzzy score is compared
against the same effective screening threshold as the semantic score —
`threshold_override or settings.similarity_threshold` (default 0.85),
not `settings.fuzzy_threshold` — and when there is no exact match and the
fuzzy score reaches that threshold, the finding has strategy fuzzy and
confidence equal to the fuzzy score. -/
theorem spec_c6_amended (f : String → String → ℚ)
    (sim : String → String → Except Unit ℚ) (override : Option ℚ)
    (entity : Entity) (entry : SanctionsEntry)
    (hex : checkExactMatch entity entry = false)
    (hf : effectiveThreshold override ≤ calculateFuzzyScore f entity entry) :
    checkSingleEntry f sim entity entry (effectiveThreshold override) =
      some (createMatchResult entity entry (calculateFuzzyScore f entity entry)
        MatchType.fuzzy (calculateFuzzyScore f entity entry)) := by
  simp only [checkSingleEntry, hex, Bool.false_eq_true, if_false, if_pos hf]

/-- Witness for the amended C6: a raw ratio of 90 gives fuzzy score 0.9 ≥
0.85, producing the fuzzy finding with confidence 0.9. -/
theorem spec_c6_amended_witness :
    checkSingleEntry (fun _ _ => 90) (fun _ _ => Except.ok 0)
      ⟨"ab", [], none, none, none⟩ ⟨"cd", [], none, none, none⟩
      (effectiveThreshold none) =
      some (createMatchResult ⟨"ab", [], none, none, none⟩
        ⟨"cd", [], none, none, none⟩
        (calculateFuzzyScore (fun _ _ => 90) ⟨"ab", [], none, none, none⟩
          ⟨"cd", [], none, none, none⟩)
        MatchType.fuzzy
        (calculateFuzzyScore (fun _ _ => 90) ⟨"ab", [], none, none, none⟩
          ⟨"cd", [], none, none, none⟩)) :=
  spec_c6_amended (fun _ _ => 90) (fun _ _ => Except.ok 0) none
    ⟨"ab", [], none, none, none⟩ ⟨"cd", [], none, none, none⟩
    (by decide)
    (by norm_num [calculateFuzzyScore, normalizeScore, pyMax,
      effectiveThreshold, similarityThreshold])

/-
C9: provider failures degrade to 0.0 and never abort screening.
-/

lemma pyMax_zero_cons (l : List ℚ) (h : ∀ x ∈ l, x = 0) :
    pyMax (0 :: l) = 0 := by
  rcases List.mem_cons.mp (pyMax_mem 0 l) with hm | hm
  · exact hm
  · exact h _ hm

lemma calculateBertScore_zeroSim (entity : Entity) (entry : SanctionsEntry) :
    calculateBertScore (fun _ _ => Except.ok 0) entity entry = 0 := by
  rw [calculateBertScore_ok (fun _ _ => 0)]
  refine pyMax_zero_cons _ ?_
  intro x hx
  rcases List.mem_flatMap.mp hx with ⟨a, _, hxa⟩
  rcases List.mem_map.mp hxa with ⟨b, _, hxb⟩
  exact hxb.symm

/-- **C9.** If the semantic step raises for a candidate/record pair, the
strategy's outcome is a 0.0 score rather than a propagated exception: the
Entry Evaluator result is the same as with a provider returning 0.0 (the
remaining strategies still run), the record loop still evaluates every
other record, and `calculate_similarity` itself already degrades a raw
provider failure to 0.0. -/
theorem spec_c9_provider_failure_nonfatal (f : String → String → ℚ)
    (sim : String → String → Except Unit ℚ) (threshold : ℚ)
    (entity : Entity) (entry : SanctionsEntry)
    (herr : calculateBertRaw sim entity entry = Except.error ()) :
    calculateBertScore sim entity entry = 0 ∧
    checkSingleEntry f sim entity entry threshold =
      checkSingleEntry f (fun _ _ => Except.ok 0) entity entry threshold ∧
    (∀ pre post : List SanctionsEntry,
      collectMatches f sim entity (pre ++ entry :: post) threshold =
        collectMatches f sim entity pre threshold ++
          (checkSingleEntry f sim entity entry threshold).toList ++
          collectMatches f sim entity post threshold) ∧
    (∀ provider : String → String → Except Unit ℚ, ∀ a b : String,
      provider a b = Except.error () → nlpCalculateSimilarity provider a b = 0) := by
  have hbs : calculateBertScore sim entity entry = 0 := by
    simp [calculateBertScore, herr]
  refine ⟨hbs, ?_, ?_, ?_⟩
  · simp only [checkSingleEntry, hbs, calculateBertScore_zeroSim]
  · intro pre post
    simp only [collectMatches, List.filterMap_append]
    rcases hcs : checkSingleEntry f sim entity entry threshold with _ | m
    · simp [List.filterMap_cons, hcs]
    · simp [List.filterMap_cons, hcs]
  · intro provider a b hp
    simp [nlpCalculateSimilarity, hp]

/-- Witness for C9 with a provider that always raises: the semantic score
degrades to 0, the Entry Evaluator behaves as with a zero provider, and
`calculate_similarity` returns 0. -/
theorem spec_c9_provider_failure_nonfatal_witness :
    calculateBertScore (fun _ _ => Except.error ())
      ⟨"ab", [], none, none, none⟩ ⟨"cd", [], none, none, none⟩ = 0 ∧
    checkSingleEntry (fun _ _ => 0) (fun _ _ => Except.error ())
        ⟨"ab", [], none, none, none⟩ ⟨"cd", [], none, none, none⟩
        (effectiveThreshold none) =
      checkSingleEntry (fun _ _ => 0) (fun _ _ => Except.ok 0)
        ⟨"ab", [], none, none, none⟩ ⟨"cd", [], none, none, none⟩
        (effectiveThreshold none) ∧
    nlpCalculateSimilarity (fun _ _ => Except.error ()) "ab" "cd" = 0 :=
  ⟨(spec_c9_provider_failure_nonfatal (fun _ _ => 0) (fun _ _ => Except.error ())
      (effectiveThreshold none) ⟨"ab", [], none, none, none⟩
      ⟨"cd", [], none, none, none⟩ rfl).1,
   (spec_c9_provider_failure_nonfatal (fun _ _ => 0) (fun _ _ => Except.error ())
      (effectiveThreshold none) ⟨"ab", [], none, none, none⟩
      ⟨"cd", [], none, none, none⟩ rfl).2.1,
   (spec_c9_provider_failure_nonfatal (fun _ _ => 0) (fun _ _ => Except.error ())
      (effectiveThreshold none) ⟨"ab", [], none, none, none⟩
      ⟨"cd", [], none, none, none⟩ rfl).2.2.2
     (fun _ _ => Except.error ()) "ab" "cd" rfl⟩

/-
C10: the aggregate risk lies between the extreme contributions.
-/

lemma overallRisk_le_of_bounds (findings : List Match)
    (hb0 : ∀ m ∈ findings, 0 ≤ m.riskScore) (hi : ℚ) (hi0 : 0 ≤ hi)
    (hhi : ∀ m ∈ findings, m.riskScore ≤ hi) :
    overallRisk findings ≤ hi := by
  simp only [overallRisk]
  by_cases hS : 0 < (findings.map (·.riskScore)).sum
  · rw [if_pos hS, div_le_iff₀ hS]
    have hstep : (findings.map fun m => m.riskScore * m.riskScore).sum
        ≤ (findings.map fun m => hi * m.riskScore).sum := by
      refine List.sum_le_sum ?_
      intro m hm
      exact mul_le_mul_of_nonneg_right (hhi m hm) (hb0 m hm)
    calc (findings.map fun m => m.riskScore * m.riskScore).sum
        ≤ (findings.map fun m => hi * m.riskScore).sum := hstep
      _ = hi * (findings.map (·.riskScore)).sum := List.sum_map_mul_left _ _ _
  · rw [if_neg hS]
    exact hi0

lemma le_overallRisk_of_bounds (findings : List Match)
    (hne : findings ≠ []) (hb0 : ∀ m ∈ findings, 0 ≤ m.riskScore) (lo : ℚ)
    (hlo : ∀ m ∈ findings, lo ≤ m.riskScore) :
    lo ≤ overallRisk findings := by
  simp only [overallRisk]
  by_cases hS : 0 < (findings.map (·.riskScore)).sum
  · rw [if_pos hS, le_div_iff₀ hS]
    calc lo * (findings.map (·.riskScore)).sum
        = (findings.map fun m => lo * m.riskScore).sum :=
          (List.sum_map_mul_left _ _ _).symm
      _ ≤ (findings.map fun m => m.riskScore * m.riskScore).sum := by
          refine List.sum_le_sum ?_
          intro m hm
          exact mul_le_mul_of_nonneg_right (hlo m hm) (hb0 m hm)
  · rw [if_neg hS]
    obtain ⟨m, hm⟩ := List.exists_mem_of_ne_nil findings hne
    have hnn : ∀ x ∈ findings.map (·.riskScore), 0 ≤ x := by
      intro x hx
      rcases List.mem_map.mp hx with ⟨m', hm', rfl⟩
      exact hb0 m' hm'
    have hsum0 : (findings.map (·.riskScore)).sum = 0 :=
      le_antisymm (not_lt.mp hS) (List.sum_nonneg hnn)
    have hmem : m.riskScore ∈ findings.map (·.riskScore) :=
      List.mem_map_of_mem _ hm
    have hm0 : m.riskScore = 0 :=
      le_antisymm (hsum0 ▸ List.single_le_sum hnn _ hmem) (hb0 m hm)
    linarith [hlo m hm]

lemma overallRisk_single_match (m : Match) (h0 : 0 ≤ m.riskScore) :
    overallRisk [m] = m.riskScore := by
  simp only [overallRisk, List.map_cons, List.map_nil, List.sum_cons,
    List.sum_nil, add_zero]
  rcases eq_or_lt_of_le h0 with h | h
  · simp [← h]
  · rw [if_pos h, mul_div_assoc, div_self (ne_of_gt h), mul_one]

/-- **C10.** For a non-empty finding list with risk contributions in
[0,1], the aggregate risk score is bounded below by every lower bound and
above by every upper bound of the contributions (so it lies between their
minimum and maximum), is itself in [0,1], and for a single finding equals
that finding's contribution. -/
theorem spec_c10_risk_bounds (findings : List Match)
    (hne : findings ≠ [])
    (hb : ∀ m ∈ findings, 0 ≤ m.riskScore ∧ m.riskScore ≤ 1) :
    (∀ lo, (∀ m ∈ findings, lo ≤ m.riskScore) →
      lo ≤ (calculateRiskAndDecision findings).1) ∧
    (∀ hi, 0 ≤ hi → (∀ m ∈ findings, m.riskScore ≤ hi) →
      (calculateRiskAndDecision findings).1 ≤ hi) ∧
    0 ≤ (calculateRiskAndDecision findings).1 ∧
    (calculateRiskAndDecision findings).1 ≤ 1 ∧
    (∀ m, findings = [m] →
      (calculateRiskAndDecision findings).1 = m.riskScore) := by
  have hb0 : ∀ m ∈ findings, 0 ≤ m.riskScore := fun m hm => (hb m hm).1
  rw [calculateRiskAndDecision_fst _ hne]
  refine ⟨?_, ?_, ?_, ?_, ?_⟩
  · intro lo hlo
    exact le_overallRisk_of_bounds findings hne hb0 lo hlo
  · intro hi hi0 hhi
    exact overallRisk_le_of_bounds findings hb0 hi hi0 hhi
  · exact le_overallRisk_of_bounds findings hne hb0 0 hb0
  · exact overallRisk_le_of_bounds findings hb0 1 (by norm_num)
      (fun m hm => (hb m hm).2)
  · intro m hm
    subst hm
    exact overallRisk_single_match m (hb0 m (List.mem_cons_self m []))

/-- Witness for C10 at a single finding of risk 3/4: the aggregate equals
3/4, is bounded by 1/2 from below and 1 from above, and is in [0,1]. -/
theorem spec_c10_risk_bounds_witness :
    (1/2 : ℚ) ≤ (calculateRiskAndDecision [mkRiskMatch (3/4)]).1 ∧
    (calculateRiskAndDecision [mkRiskMatch (3/4)]).1 ≤ 1 ∧
    (calculateRiskAndDecision [mkRiskMatch (3/4)]).1 = (mkRiskMatch (3/4)).riskScore := by
  have h := spec_c10_risk_bounds [mkRiskMatch (3/4)] (by simp)
    (by intro m hm; simp at hm; subst hm; constructor <;> norm_num [mkRiskMatch])
  refine ⟨h.1 (1/2) ?_, h.2.2.2.1, h.2.2.2.2 (mkRiskMatch (3/4)) rfl⟩
  intro m hm
  simp at hm
  subst hm
  norm_num [mkRiskMatch]
